import Mathlib

/-!
Shallow embedding of the rPPG vitals-estimation pipeline of `rppg_refactored.py`
(classes `SignalExtractor`, `SignalProcessor`, `VitalsEstimator`, `RiskAssessor`).

Modelling conventions used throughout:

* Python floats are modelled by exact rationals (`ℚ`); the thresholds involved in
  every claim are far from any rounding knife-edge.
* `numpy` NaN markers in the extracted channel series are modelled by `Option ℚ`
  (`none` = NaN); fields that the source sets to `None`/`np.nan` are `Option`s.
* `np.std x` is the square root of the population variance of `x`.  To stay in
  exact arithmetic we carry the variance (the square of the standard deviation)
  and translate every comparison `np.std x < c` (with `c ≥ 0`) into the exactly
  equivalent `varP x < c^2`, and `p ≥ 0.3 * np.std x` (with `p ≥ 0`) into
  `p^2 ≥ 0.09 * varP x`.  Fields holding a standard deviation are named with a
  `_sq` suffix and hold its square.
* External numeric routines with irrational outputs (`scipy.signal.filtfilt`
  applying the Butterworth filter, `scipy.signal.welch`, the float square root
  used implicitly by `np.std` when its *value*, not a comparison, is consumed)
  are taken as explicit function parameters; every theorem quantifies over them
  or instantiates them, so no property proved here depends on their behaviour.
  The exact rational checks that guard those calls in the source (band-edge
  validity, the `filtfilt` pad-length check) are modelled concretely.
* Exceptions are modelled with `Except`; the error kinds of the spec's taxonomy
  are the constructors of `Err` (plus `noValidBins` for the literal
  `"No valid frequency bins in heart rate band."` raise in the source).
-/

namespace Rppg

/- The Batteries rational-number operations are `@[irreducible]`, which blocks
the elaborator-side evaluation used by `decide` on concrete inputs; restoring
the default reducibility inside this file lets concrete computations on exact
rationals be checked by the kernel. -/
attribute [local semireducible] Rat.add Rat.mul Rat.sub Rat.inv Rat.ofScientific

deriving instance DecidableEq for Except

/-- Failure kinds of the pipeline: the five kinds of the spec's §7 taxonomy
(`inputUnreadable` is raised by `extract` when the clip cannot be decoded,
before the frame loop modelled here) plus `noValidBins` for the extra raise
site in `VitalsEstimator.estimate_heart_rate`
(`"No valid frequency bins in heart rate band."`), a failure the taxonomy
does not name. -/
inductive Err where
  | inputUnreadable
  | lowDetectionRate
  | degenerateSignal
  | implausibleHeartRate
  | filterConfig
  | noValidBins
  deriving DecidableEq, Repr

/-- Confidence labels returned with the heart-rate estimate. -/
inductive Confidence where
  | high
  | medium
  | low
  deriving DecidableEq, Repr

/-- Sum of a rational list (numpy `np.sum`). -/
def qsum (l : List ℚ) : ℚ := l.sum

/-- Mean of a rational list (`np.mean`); `0` on the empty list (the source never
takes a mean of an empty array on the paths modelled here). -/
def qmean (l : List ℚ) : ℚ := l.sum / l.length

/-- Population variance of a rational list: the square of `np.std`. -/
def varP (l : List ℚ) : ℚ := ((l.map (fun x => (x - qmean l) ^ 2)).sum) / l.length

/-- Extracted channel data (`SignalData` dataclass): per-frame green/red means
with `none` marking frames without a detected face. -/
structure SignalData where
  green : List (Option ℚ)
  red : List (Option ℚ)
  fps : ℚ
  detected_frames : ℕ
  total_frames : ℕ

/-- Number of frames whose face detection succeeded with a non-empty ROI patch
(the frames for which the extraction loop appends a numeric sample and
increments `detected_frames`). -/
def countDetected (frames : List (Option (ℚ × ℚ))) : ℕ :=
  frames.countP (fun f => f.isSome)

/-- Embedding of `SignalExtractor.extract`.  A frame is `some (g, r)` when a
valid face ROI was found (the per-frame green/red patch means), `none`
otherwise.  `fpsDecl` is the container's declared frame rate (`0` modelling the
`fps == 0 or isnan` fallback to `SignalConfig.FPS_DEFAULT = 30`), `metaFrames`
the container's frame-count metadata (`0` modelling the Python-falsy value for
which the source skips the detection-ratio check, via `int(...) or None`).
The detection gate `detected_frames < total_frames * MIN_DETECTION_RATIO` with
`MIN_DETECTION_RATIO = 0.25` is the exact comparison `4 * detected < meta`. -/
def extract (frames : List (Option (ℚ × ℚ))) (fpsDecl : ℚ) (metaFrames : ℕ) :
    Except Err SignalData :=
  let fps := if fpsDecl = 0 then 30 else fpsDecl
  let detected := countDetected frames
  if metaFrames ≠ 0 ∧ 4 * detected < metaFrames then
    Except.error Err.lowDetectionRate
  else
    Except.ok
      { green := frames.map (Option.map Prod.fst)
        red := frames.map (Option.map Prod.snd)
        fps := fps
        detected_frames := detected
        total_frames := frames.length }

/-- Conditioned signal with spectral metadata (`FilteredSignal` dataclass).
`low_variance` and `high_motion` are the two boolean quality flags. -/
structure FilteredSignal where
  signal : List ℚ
  sampling_rate : ℚ
  psd : List ℚ
  psd_freqs : List ℚ
  snr : ℚ
  low_variance : Bool
  high_motion : Bool

/-- Frequency/power pairs of the PSD restricted to the heart-rate pass band
`BANDPASS_LOW = 0.75 ≤ f ≤ BANDPASS_HIGH = 3.0` (the `valid_band` mask applied
to `psd_freqs` and `psd`). -/
def inBandPairs (fs : FilteredSignal) : List (ℚ × ℚ) :=
  (fs.psd_freqs.zip fs.psd).filter (fun fp => 3 / 4 ≤ fp.1 ∧ fp.1 ≤ 3)

/-- First pair of maximal power (`np.argmax` keeps the first maximum). -/
def argmaxPair : List (ℚ × ℚ) → Option (ℚ × ℚ)
  | [] => none
  | x :: xs => some (xs.foldl (fun b y => if y.2 > b.2 then y else b) x)

/-- Embedding of `VitalsEstimator.estimate_heart_rate`: dominant in-band PSD
frequency converted to BPM, with the `HRConfig.MIN_HR = 30` /
`HRConfig.MAX_HR = 220` sanity rejection and the SNR-based confidence label. -/
def estimate_heart_rate (fs : FilteredSignal) : Except Err (ℚ × Confidence) :=
  match argmaxPair (inBandPairs fs) with
  | none => Except.error Err.noValidBins
  | some fp =>
    if fp.1 * 60 < 30 ∨ fp.1 * 60 > 220 then Except.error Err.implausibleHeartRate
    else
      Except.ok (fp.1 * 60,
        if fs.snr > 2 then Confidence.high
        else if fs.snr > 1 then Confidence.medium
        else Confidence.low)

/-- Folding the keep-the-larger step returns the accumulator or a list element. -/
theorem foldl_max_mem (l : List (ℚ × ℚ)) (b : ℚ × ℚ) :
    l.foldl (fun b y => if y.2 > b.2 then y else b) b ∈ b :: l := by
  induction l generalizing b with
  | nil => simp
  | cons c cs ih =>
    simp only [List.foldl_cons]
    by_cases h : c.2 > b.2
    · simp only [if_pos h]
      rcases List.mem_cons.mp (ih c) with h1 | h2
      · rw [h1]; exact List.mem_cons_of_mem _ (List.mem_cons_self _ _)
      · exact List.mem_cons_of_mem _ (List.mem_cons_of_mem _ h2)
    · simp only [if_neg h]
      rcases List.mem_cons.mp (ih b) with h1 | h2
      · rw [h1]; exact List.mem_cons_self _ _
      · exact List.mem_cons_of_mem _ (List.mem_cons_of_mem _ h2)

/-- The result of `argmaxPair` is an element of its input list. -/
theorem argmaxPair_mem (l : List (ℚ × ℚ)) (x : ℚ × ℚ) (h : argmaxPair l = some x) :
    x ∈ l := by
  match l with
  | [] => simp [argmaxPair] at h
  | a :: as =>
    simp only [argmaxPair, Option.some.injEq] at h
    subst h
    exact foldl_max_mem as a

/-- Membership in the in-band pair list gives the band bounds on the frequency. -/
theorem inBandPairs_bounds (fs : FilteredSignal) (fp : ℚ × ℚ) (h : fp ∈ inBandPairs fs) :
    3 / 4 ≤ fp.1 ∧ fp.1 ≤ 3 := by
  unfold inBandPairs at h
  have := (List.mem_filter.mp h).2
  simpa using this

/-- C2: a clip whose detection ratio `detected_frames / total_frames` is below
`MIN_DETECTION_RATIO = 0.25` makes `SignalExtractor.extract` fail with the
`LowDetectionRate` error instead of returning a signal. -/
theorem extract_fails_on_low_detection (frames : List (Option (ℚ × ℚ))) (fpsDecl : ℚ)
    (m : ℕ) (hm : m ≠ 0) (hlow : 4 * countDetected frames < m) :
    extract frames fpsDecl m = Except.error Err.lowDetectionRate := by
  unfold extract
  simp only [if_pos (And.intro hm hlow)]

/-- Witness for C2: a clip of 20 frames with a face found in only 1 frame
(detection ratio 5 percent) fails with `LowDetectionRate`. -/
theorem extract_fails_on_low_detection_witness :
    (20 : ℕ) ≠ 0 ∧
      4 * countDetected (some (1, 1) :: List.replicate 19 none) < 20 ∧
      extract (some (1, 1) :: List.replicate 19 none) 30 20 =
        Except.error Err.lowDetectionRate :=
  ⟨by decide, by decide,
    extract_fails_on_low_detection _ 30 20 (by decide) (by decide)⟩

/-- C1 (amended): `estimate_heart_rate` never returns a BPM outside
`[30, 220]` — every successful result lies in that window — and every failure
it raises is either the unnamed empty-band raise (`noValidBins`, outside the
spec's taxonomy; see the counterexample) or the `ImplausibleHeartRate` sanity
rejection, the latter exactly the branch for a spectral estimate outside
`[30, 220]`. -/
theorem estimateHeartRate_range_or_error (fs : FilteredSignal) :
    (∀ b c, estimate_heart_rate fs = Except.ok (b, c) → 30 ≤ b ∧ b ≤ 220) ∧
    (∀ e, estimate_heart_rate fs = Except.error e →
      e = Err.noValidBins ∨ e = Err.implausibleHeartRate) := by
  constructor
  · intro b c h
    unfold estimate_heart_rate at h
    split at h
    · exact absurd h (by simp)
    · split at h
      · exact absurd h (by simp)
      · rename_i hcond
        push_neg at hcond
        simp only [Except.ok.injEq, Prod.mk.injEq] at h
        obtain ⟨hb, -⟩ := h
        rw [← hb]
        exact ⟨hcond.1, hcond.2⟩
  · intro e h
    unfold estimate_heart_rate at h
    split at h
    · simp only [Except.error.injEq] at h
      left; exact h.symm
    · split at h
      · simp only [Except.error.injEq] at h
        right; exact h.symm
      · exact absurd h (by simp)

/-- Concrete conditioned signal whose PSD has a single in-band bin at 1.2 Hz. -/
def fsAt72 : FilteredSignal :=
  { signal := [], sampling_rate := 30, psd := [5], psd_freqs := [6 / 5], snr := 3,
    low_variance := false, high_motion := false }

/-- Concrete conditioned signal whose only PSD bin lies below the pass band. -/
def fsNoBand : FilteredSignal :=
  { signal := [], sampling_rate := 30, psd := [5], psd_freqs := [1 / 2], snr := 3,
    low_variance := false, high_motion := false }

/-- Witness for C1: at a 1.2 Hz dominant bin the estimator succeeds with 72 BPM
inside `[30, 220]`, and on an empty band it fails with the modelled kind. -/
theorem estimateHeartRate_range_or_error_witness :
    (30 ≤ (72 : ℚ) ∧ (72 : ℚ) ≤ 220) ∧
      (Err.noValidBins = Err.noValidBins ∨ Err.noValidBins = Err.implausibleHeartRate) :=
  ⟨(estimateHeartRate_range_or_error fsAt72).1 72 Confidence.high
      (by norm_num [estimate_heart_rate, inBandPairs, argmaxPair, fsAt72]),
    (estimateHeartRate_range_or_error fsNoBand).2 Err.noValidBins
      (by norm_num [estimate_heart_rate, inBandPairs, argmaxPair, fsNoBand])⟩

/-- C10: whenever the PSD frequency axis has at least one bin inside the
0.75–3.0 Hz pass band, `estimate_heart_rate` succeeds and its BPM lies in
`[45, 180]` (the peak is selected among in-band bins only), and consequently
the `ImplausibleHeartRate` rejection branch is unreachable for every input. -/
theorem estimateHeartRate_in_band_success :
    (∀ (fs : FilteredSignal) (fp : ℚ × ℚ), fp ∈ inBandPairs fs →
      ∃ b c, estimate_heart_rate fs = Except.ok (b, c) ∧ 45 ≤ b ∧ b ≤ 180) ∧
    (∀ fs : FilteredSignal, estimate_heart_rate fs ≠ Except.error Err.implausibleHeartRate) := by
  have key : ∀ (fs : FilteredSignal) (fp : ℚ × ℚ), argmaxPair (inBandPairs fs) = some fp →
      estimate_heart_rate fs =
        Except.ok (fp.1 * 60,
          if fs.snr > 2 then Confidence.high
          else if fs.snr > 1 then Confidence.medium
          else Confidence.low) ∧ 45 ≤ fp.1 * 60 ∧ fp.1 * 60 ≤ 180 := by
    intro fs fp hm
    have hmem := argmaxPair_mem _ _ hm
    have hbd := inBandPairs_bounds fs fp hmem
    have h45 : 45 ≤ fp.1 * 60 := by nlinarith [hbd.1]
    have h180 : fp.1 * 60 ≤ 180 := by nlinarith [hbd.2]
    have hcond : ¬(fp.1 * 60 < 30 ∨ fp.1 * 60 > 220) := by
      push_neg
      constructor <;> linarith
    refine ⟨?_, h45, h180⟩
    unfold estimate_heart_rate
    split
    · rename_i heq
      rw [hm] at heq
      exact absurd heq (by simp)
    · rename_i fp2 heq
      rw [hm] at heq
      injection heq with h2
      subst h2
      rw [if_neg hcond]
  constructor
  · intro fs fp hmem
    obtain ⟨fp2, hm⟩ : ∃ x, argmaxPair (inBandPairs fs) = some x := by
      cases hl : inBandPairs fs with
      | nil => rw [hl] at hmem; exact absurd hmem (by simp)
      | cons a as =>
        exact ⟨_, rfl⟩
    obtain ⟨heq, h45, h180⟩ := key fs fp2 hm
    exact ⟨fp2.1 * 60, _, heq, h45, h180⟩
  · intro fs h
    cases hm : argmaxPair (inBandPairs fs) with
    | none =>
      unfold estimate_heart_rate at h
      rw [hm] at h
      exact absurd h (by simp)
    | some fp =>
      obtain ⟨heq, -, -⟩ := key fs fp hm
      rw [heq] at h
      exact absurd h (by simp)

/-- Witness for C10: the 1.2 Hz bin of `fsAt72` is in band, and the estimator
returns 72 BPM inside `[45, 180]`. -/
theorem estimateHeartRate_in_band_success_witness :
    ((6 / 5 : ℚ), (5 : ℚ)) ∈ inBandPairs fsAt72 ∧
      ∃ b c, estimate_heart_rate fsAt72 = Except.ok (b, c) ∧ 45 ≤ b ∧ b ≤ 180 :=
  ⟨by norm_num [inBandPairs, fsAt72],
    estimateHeartRate_in_band_success.1 fsAt72 (6 / 5, 5)
      (by norm_num [inBandPairs, fsAt72])⟩

/-- Consecutive differences of a list (`np.diff`). -/
def diffs (l : List ℚ) : List ℚ := (l.zip l.tail).map (fun p => p.2 - p.1)

/-- Count of consecutive interval differences larger than 50 ms in absolute
value (`np.sum(np.abs(np.diff(rr_intervals)) > 50)`). -/
def nn50 (rr : List ℚ) : ℕ := (diffs rr).countP (fun d => 50 < |d|)

/-- Embedding of `VitalsEstimator.compute_hrv_metrics`.  The source returns
`(np.nan, np.nan)` when fewer than `MIN_PEAKS_FOR_HRV = 3` intervals are given
and `(np.std(rr), pnn50)` otherwise; NaN is `none`, and the SDNN slot carries
the square of `np.std(rr)` (the population variance) per the file conventions. -/
def compute_hrv_metrics (rr : List ℚ) : Option ℚ × Option ℚ :=
  if rr.length < 3 then (none, none)
  else
    (some (varP rr),
      some (if 1 < rr.length then 100 * (nn50 rr : ℚ) / ((rr.length : ℚ) - 1) else 0))

/-- Reference definition following the spec's words (spec §4.7 and glossary):
the standard deviation of the interval sample, here its square written in the
second-moment form `E[x^2] - (E[x])^2`. -/
def specSdnnSq (l : List ℚ) : ℚ :=
  (l.map (fun x => x ^ 2)).sum / l.length - (l.sum / l.length) ^ 2

/-- Reference definition following the spec's words: the percentage of
consecutive-interval differences whose absolute value exceeds 50 ms. -/
def specPnn50 (rr : List ℚ) : ℚ :=
  100 * (((diffs rr).filter (fun d => 50 < |d|)).length : ℚ) / ((diffs rr).length : ℚ)

/-- Expanding a shifted sum of squares (used for the variance identity). -/
theorem sum_sq_shift (l : List ℚ) (c : ℚ) :
    (l.map (fun x => (x - c) ^ 2)).sum =
      (l.map (fun x => x ^ 2)).sum - 2 * c * l.sum + l.length * c ^ 2 := by
  induction l with
  | nil => simp
  | cons a as ih =>
    simp only [List.map_cons, List.sum_cons, List.length_cons, ih]
    push_cast
    ring

/-- The population variance equals the second-moment form. -/
theorem varP_eq_specSdnnSq (l : List ℚ) : varP l = specSdnnSq l := by
  rcases Nat.eq_zero_or_pos l.length with h0 | hpos
  · have : l = [] := List.length_eq_zero.mp h0
    subst this
    simp [varP, specSdnnSq, qmean]
  · have hne : (l.length : ℚ) ≠ 0 := by
      exact_mod_cast Nat.pos_iff_ne_zero.mp hpos
    unfold varP specSdnnSq qmean
    rw [sum_sq_shift]
    field_simp
    ring

/-- Length of the consecutive-differences list. -/
theorem diffs_length (l : List ℚ) : (diffs l).length = l.length - 1 := by
  unfold diffs
  rw [List.length_map, List.length_zip, List.length_tail]
  omega

/-- C7: `compute_hrv_metrics` matches the reference definitions — the SDNN it
returns is the standard deviation of the interval sample (squares agree) and
its pNN50 is the percentage of consecutive-interval differences exceeding
50 ms in absolute value; on beat intervals `[800, 820, 780, 810]` it returns
pNN50 = 0 and a strictly positive SDNN (squared SDNN `875/4`). -/
theorem computeHrvMetrics_matches_reference :
    (∀ rr : List ℚ, 3 ≤ rr.length →
      compute_hrv_metrics rr = (some (specSdnnSq rr), some (specPnn50 rr))) ∧
    compute_hrv_metrics [800, 820, 780, 810] = (some (875 / 4), some 0) ∧
    (0 : ℚ) < 875 / 4 := by
  refine ⟨?_, ?_, by norm_num⟩
  · intro rr h3
    have hnotlt : ¬ rr.length < 3 := by omega
    have h1 : 1 < rr.length := by omega
    unfold compute_hrv_metrics
    rw [if_neg hnotlt, if_pos h1, varP_eq_specSdnnSq]
    have hcount : nn50 rr = ((diffs rr).filter (fun d => 50 < |d|)).length := by
      unfold nn50
      exact List.countP_eq_length_filter _ _
    have hlen : ((diffs rr).length : ℚ) = (rr.length : ℚ) - 1 := by
      rw [diffs_length]
      have : 1 ≤ rr.length := by omega
      push_cast [this]
      ring
    unfold specPnn50
    rw [hcount, hlen]
  · norm_num [compute_hrv_metrics, varP, qmean, nn50, diffs]

/-- Witness for C7: the reference equation instantiated at the concrete beat
intervals `[800, 820, 780, 810]`. -/
theorem computeHrvMetrics_matches_reference_witness :
    compute_hrv_metrics [800, 820, 780, 810] =
      (some (specSdnnSq [800, 820, 780, 810]), some (specPnn50 [800, 820, 780, 810])) :=
  computeHrvMetrics_matches_reference.1 [800, 820, 780, 810] (by simp)

/-- Vitals estimation output (`VitalsEstimate` dataclass).  Fields that the
source can set to `None` or `np.nan` are `Option`s (`none` for both, since the
downstream `RiskAssessor` treats them identically via `is not None` plus
`np.isnan` guards); `sdnn_sq` carries the square of the stored SDNN. -/
structure VitalsEstimate where
  heart_rate_bpm : Option ℚ
  heart_rate_confidence : Confidence
  rr_intervals : List ℚ
  sdnn_sq : Option ℚ
  pnn50 : Option ℚ
  stress_level : Option ℚ
  bp_systolic : Option ℚ
  bp_diastolic : Option ℚ
  bp_note : String
  spo2 : Option ℚ
  spo2_note : String

/-- HRV statistic reported by the pipeline for a given metric name, when the
vitals are estimated from the beat-interval list `rr`.  The `VitalsEstimate`
dataclass declares exactly two HRV statistic fields, `sdnn` and `pnn50`, both
filled from `compute_hrv_metrics(rr_intervals)` in `VitalsEstimator.estimate`;
any other metric name (in particular `"rmssd"`) has no corresponding field and
is therefore absent from every result the pipeline reports. -/
def hrvReported (rr : List ℚ) (name : String) : Option ℚ :=
  if name = "sdnn" then (compute_hrv_metrics rr).1
  else if name = "pnn50" then (compute_hrv_metrics rr).2
  else none

/-- Counterexample for C5: on the run with beat intervals
`[800, 820, 780, 810]` (four intervals, so at least 3), SDNN and pNN50 are
numeric but RMSSD is not reported at all — the claim's "RMSSD … numeric
otherwise" fails because the pipeline computes no RMSSD. -/
theorem hrv_rmssd_never_reported :
    3 ≤ ([800, 820, 780, 810] : List ℚ).length ∧
      (hrvReported [800, 820, 780, 810] "sdnn").isSome = true ∧
      (hrvReported [800, 820, 780, 810] "pnn50").isSome = true ∧
      hrvReported [800, 820, 780, 810] "rmssd" = none := by
  refine ⟨by simp, ?_, ?_, ?_⟩ <;> decide

/-- C5 (amended): SDNN and pNN50 are each unavailable (NaN) exactly when fewer
than 3 beat intervals are detected and numeric otherwise, while RMSSD is never
reported by the pipeline (no such field exists in `VitalsEstimate`). -/
theorem hrv_available_iff_enough_intervals (rr : List ℚ) :
    ((compute_hrv_metrics rr).1.isSome ↔ 3 ≤ rr.length) ∧
    ((compute_hrv_metrics rr).2.isSome ↔ 3 ≤ rr.length) ∧
    hrvReported rr "rmssd" = none := by
  unfold hrvReported compute_hrv_metrics
  by_cases h : rr.length < 3
  · simp [if_pos h]
    omega
  · simp [if_neg h]
    omega

/-- Embedding of `VitalsEstimator.experimental_bp_estimate`: a systolic range
selected from the BPM bracket, its midpoint as SBP and `SBP - 40` as DBP (the
`sdnn` argument is unused by the source beyond its signature). -/
def experimental_bp_estimate (bpm : ℚ) (_sdnnSq : Option ℚ) : ℚ × ℚ :=
  let r : ℚ × ℚ :=
    if bpm < 60 then (105, 120)
    else if bpm < 80 then (115, 130)
    else (125, 145)
  ((r.1 + r.2) / 2, (r.1 + r.2) / 2 - 40)

/-- C8: for every heart-rate value the experimental blood-pressure estimate
satisfies the physiologic bounds — systolic in `[90, 180]`, diastolic in
`[60, 120]`, and diastolic at least 20 below systolic. -/
theorem experimentalBpEstimate_bounds (bpm : ℚ) (sdnnSq : Option ℚ) :
    90 ≤ (experimental_bp_estimate bpm sdnnSq).1 ∧
    (experimental_bp_estimate bpm sdnnSq).1 ≤ 180 ∧
    60 ≤ (experimental_bp_estimate bpm sdnnSq).2 ∧
    (experimental_bp_estimate bpm sdnnSq).2 ≤ 120 ∧
    (experimental_bp_estimate bpm sdnnSq).2 + 20 ≤ (experimental_bp_estimate bpm sdnnSq).1 := by
  unfold experimental_bp_estimate
  split_ifs <;> norm_num

/-- Heart-rate contribution to the risk score (`RiskAssessor.assess`, the
`if bpm is not None` block). -/
def hrScore : Option ℚ → ℕ
  | none => 0
  | some b =>
    if b > 180 then 4
    else if b > 140 then 3
    else if b > 120 then 2
    else if b < 35 then 4
    else if b < 50 then 2
    else 0

/-- HRV contribution (`if not np.isnan(sdnn)` block); the comparisons
`sdnn < 10 / 20 / 30` are carried on the square as `< 100 / 400 / 900`. -/
def sdnnScore : Option ℚ → ℕ
  | none => 0
  | some s =>
    if s < 100 then 3
    else if s < 400 then 2
    else if s < 900 then 1
    else 0

/-- Blood-pressure contribution: the hypotension test and the independent
hypertension chain of `RiskAssessor.assess`. -/
def bpScore : Option ℚ → Option ℚ → ℕ
  | some s, some d =>
    (if s < 90 ∨ d < 60 then 2 else 0) +
      (if s > 180 ∨ d > 110 then 4 else if s > 160 ∨ d > 100 then 2 else 0)
  | _, _ => 0

/-- SpO₂ contribution. -/
def spo2Score : Option ℚ → ℕ
  | none => 0
  | some v => if v < 90 then 4 else if v < 95 then 2 else 0

/-- Stress contribution. -/
def stressScore : Option ℚ → ℕ
  | none => 0
  | some t => if t > 8 then 1 else 0

/-- Risk score of `RiskAssessor.assess`: the source accumulates the five
independent contributions into `score` (the alert strings and recommendation
text accompany the same branches and carry no further numeric content). -/
def riskScore (v : VitalsEstimate) : ℕ :=
  hrScore v.heart_rate_bpm + sdnnScore v.sdnn_sq +
    bpScore v.bp_systolic v.bp_diastolic + spo2Score v.spo2 +
    stressScore v.stress_level

/-- Risk bucket mapping of `RiskAssessor.assess`. -/
def riskLevel (score : ℕ) : String :=
  if 7 ≤ score then "HIGH" else if 3 ≤ score then "MODERATE" else "LOW"

/-- Concrete vitals with hypotensive estimated BP (85/80) and all other
fields in their unremarkable ranges. -/
def vitalsHypo : VitalsEstimate :=
  { heart_rate_bpm := some 70
    heart_rate_confidence := Confidence.high
    rr_intervals := [800, 820, 780, 810]
    sdnn_sq := some 2500
    pnn50 := some 0
    stress_level := some 1
    bp_systolic := some 85
    bp_diastolic := some 80
    bp_note := "experimental"
    spo2 := some 98
    spo2_note := "experimental" }

/-- The same vitals with only the systolic pressure raised from 85 to 95. -/
def vitalsHypoRaised : VitalsEstimate := { vitalsHypo with bp_systolic := some 95 }

/-- Counterexample for C9: raising the systolic BP from 85 to 95 with every
other vital held fixed lowers the risk score from 2 to 0 — "raising BP …
never decreases the score" fails because leaving the hypotension range turns
its +2 alert off. -/
theorem riskScore_drops_when_bp_raised :
    vitalsHypoRaised = { vitalsHypo with bp_systolic := some 95 } ∧
      (85 : ℚ) < 95 ∧ riskScore vitalsHypo = 2 ∧ riskScore vitalsHypoRaised = 0 := by
  refine ⟨rfl, by norm_num, ?_, ?_⟩ <;>
    norm_num [riskScore, hrScore, sdnnScore, bpScore, spo2Score, stressScore,
      vitalsHypo, vitalsHypoRaised]

/-- Monotonicity of the heart-rate contribution above the bradycardia zone. -/
theorem hrScore_mono (b b' : ℚ) (hb : 50 ≤ b) (hbb : b ≤ b') :
    hrScore (some b) ≤ hrScore (some b') := by
  simp only [hrScore]
  split_ifs <;> first | omega | (exfalso; linarith)

/-- Antitonicity of the HRV contribution. -/
theorem sdnnScore_anti (s s' : ℚ) (hss : s' ≤ s) :
    sdnnScore (some s) ≤ sdnnScore (some s') := by
  simp only [sdnnScore]
  split_ifs <;> first | omega | (exfalso; linarith)

/-- Antitonicity of the SpO₂ contribution. -/
theorem spo2Score_anti (x x' : ℚ) (hxx : x' ≤ x) :
    spo2Score (some x) ≤ spo2Score (some x') := by
  simp only [spo2Score]
  split_ifs <;> first | omega | (exfalso; linarith)

/-- Monotonicity of the stress contribution. -/
theorem stressScore_mono (t t' : ℚ) (htt : t ≤ t') :
    stressScore (some t) ≤ stressScore (some t') := by
  simp only [stressScore]
  split_ifs <;> first | omega | (exfalso; linarith)

/-- Monotonicity of the BP contribution on the non-hypotensive region. -/
theorem bpScore_mono (s d s' d' : ℚ) (hs : 90 ≤ s) (hd : 60 ≤ d)
    (hss : s ≤ s') (hdd : d ≤ d') :
    bpScore (some s) (some d) ≤ bpScore (some s') (some d') := by
  simp only [bpScore]
  split_ifs <;> push_neg at * <;> casesm* _ ∨ _, _ ∧ _ <;>
    first | omega | (exfalso; linarith)

/-- C9 (amended): the risk score is non-decreasing when any single alert
condition is made more severe with all other vitals fixed — raising heart rate
at or above 50 BPM (past the tachycardia thresholds), lowering SDNN, lowering
SpO₂, raising stress, and raising BP within the non-hypotensive region
(systolic at least 90 and diastolic at least 60); heart rate above 180
contributes strictly more than heart rate in (140, 180].  (Raising BP out of
the hypotensive range can lower the score, so the unrestricted "raising BP"
form of the claim fails — see the counterexample.) -/
theorem riskScore_monotone_per_condition :
    (∀ (v : VitalsEstimate) (b b' : ℚ), v.heart_rate_bpm = some b → 50 ≤ b → b ≤ b' →
      riskScore v ≤ riskScore { v with heart_rate_bpm := some b' }) ∧
    (∀ (v : VitalsEstimate) (s s' : ℚ), v.sdnn_sq = some s → s' ≤ s →
      riskScore v ≤ riskScore { v with sdnn_sq := some s' }) ∧
    (∀ (v : VitalsEstimate) (x x' : ℚ), v.spo2 = some x → x' ≤ x →
      riskScore v ≤ riskScore { v with spo2 := some x' }) ∧
    (∀ (v : VitalsEstimate) (t t' : ℚ), v.stress_level = some t → t ≤ t' →
      riskScore v ≤ riskScore { v with stress_level := some t' }) ∧
    (∀ (v : VitalsEstimate) (s d s' d' : ℚ),
      v.bp_systolic = some s → v.bp_diastolic = some d →
      90 ≤ s → 60 ≤ d → s ≤ s' → d ≤ d' →
      riskScore v ≤ riskScore { v with bp_systolic := some s', bp_diastolic := some d' }) ∧
    (∀ b b' : ℚ, 180 < b → 140 < b' → b' ≤ 180 → hrScore (some b') < hrScore (some b)) := by
  refine ⟨?_, ?_, ?_, ?_, ?_, ?_⟩
  · intro v b b' hv h1 h2
    simp only [riskScore, hv]
    linarith [hrScore_mono b b' h1 h2]
  · intro v s s' hv h1
    simp only [riskScore, hv]
    linarith [sdnnScore_anti s s' h1]
  · intro v x x' hv h1
    simp only [riskScore, hv]
    linarith [spo2Score_anti x x' h1]
  · intro v t t' hv h1
    simp only [riskScore, hv]
    linarith [stressScore_mono t t' h1]
  · intro v s d s' d' hvs hvd h1 h2 h3 h4
    simp only [riskScore, hvs, hvd]
    linarith [bpScore_mono s d s' d' h1 h2 h3 h4]
  · intro b b' h1 h2 h3
    simp only [hrScore]
    split_ifs <;> first | omega | (exfalso; linarith)

/-- Witness for C9 (amended): each monotonicity conjunct instantiated at
concrete vitals built from `vitalsHypo`. -/
theorem riskScore_monotone_per_condition_witness :
    riskScore vitalsHypo ≤ riskScore { vitalsHypo with heart_rate_bpm := some 130 } ∧
    riskScore vitalsHypo ≤ riskScore { vitalsHypo with sdnn_sq := some 100 } ∧
    riskScore vitalsHypo ≤ riskScore { vitalsHypo with spo2 := some 80 } ∧
    riskScore vitalsHypo ≤ riskScore { vitalsHypo with stress_level := some 9 } ∧
    riskScore vitalsHypoRaised ≤
      riskScore { vitalsHypoRaised with bp_systolic := some 170, bp_diastolic := some 90 } ∧
    hrScore (some 150) < hrScore (some 190) :=
  ⟨riskScore_monotone_per_condition.1 vitalsHypo 70 130 rfl (by norm_num) (by norm_num),
    riskScore_monotone_per_condition.2.1 vitalsHypo 2500 100 rfl (by norm_num),
    riskScore_monotone_per_condition.2.2.1 vitalsHypo 98 80 rfl (by norm_num),
    riskScore_monotone_per_condition.2.2.2.1 vitalsHypo 1 9 rfl (by norm_num),
    riskScore_monotone_per_condition.2.2.2.2.1 vitalsHypoRaised 95 80 170 90 rfl rfl
      (by norm_num) (by norm_num) (by norm_num) (by norm_num),
    riskScore_monotone_per_condition.2.2.2.2.2 190 150 (by norm_num) (by norm_num)
      (by norm_num)⟩

/-- Latest known sample at or before index `k` (`none` if all earlier are NaN). -/
def prevKnown (l : List (Option ℚ)) (k : ℕ) : Option (ℕ × ℚ) :=
  (((l.take (k + 1)).enum).filterMap (fun p => p.2.map (fun v => (p.1, v)))).getLast?

/-- Earliest known sample at or after index `k` (`none` if all later are NaN). -/
def nextKnown (l : List (Option ℚ)) (k : ℕ) : Option (ℕ × ℚ) :=
  ((l.enum.drop k).filterMap (fun p => p.2.map (fun v => (p.1, v)))).head?

/-- Fill value for a NaN at index `k`: linear interpolation between the
bracketing known samples, boundary fill (`bfill`/`ffill`) when only one side
has a known sample, `0` in the all-NaN corner the modelled paths never hit. -/
def interpValue (prev next : Option (ℕ × ℚ)) (k : ℕ) : ℚ :=
  match prev, next with
  | some ia, some jb => ia.2 + (jb.2 - ia.2) * ((k : ℚ) - ia.1) / ((jb.1 : ℚ) - ia.1)
  | some ia, none => ia.2
  | none, some jb => jb.2
  | none, none => 0

/-- Embedding of `SignalProcessor.interpolate_nans`: identity on NaN-free
input (the early return), otherwise linear interpolation of gaps with
forward/backward fill at the boundaries (`pd.Series.interpolate` with
`limit_direction both` followed by `bfill`/`ffill`). -/
def interpolate_nans (l : List (Option ℚ)) : List ℚ :=
  if l.all Option.isSome then l.map (fun o => o.getD 0)
  else
    l.enum.map (fun p =>
      match p.2 with
      | some v => v
      | none => interpValue (prevKnown l p.1) (nextKnown l p.1) p.1)

/-- Embedding of `scipy.signal.detrend` (default `type` linear): subtract the
least-squares line over sample indices `0, …, n-1`, in centered form. -/
def detrendLinear (l : List ℚ) : List ℚ :=
  let n := l.length
  let tbar : ℚ := ((n : ℚ) - 1) / 2
  let ybar := qmean l
  let sxx : ℚ := ((List.range n).map (fun i => ((i : ℚ) - tbar) ^ 2)).sum
  let sxy : ℚ := (l.enum.map (fun p => ((p.1 : ℚ) - tbar) * (p.2 - ybar))).sum
  l.enum.map (fun p => p.2 - (ybar + sxy / sxx * ((p.1 : ℚ) - tbar)))

/-- Embedding of `SignalProcessor.butter_bandpass_filter` around an abstract
numeric filter `filt` (the Butterworth design plus `filtfilt`): the exact
band-edge validity check of the source (`low >= high` raises) and the
`filtfilt` pad-length check (`len(x) <= 3 * max(len(a), len(b)) = 27` raises
for the order-4 band filter) are concrete; the numeric output is `filt x`. -/
def butter_bandpass_filter (filt : List ℚ → List ℚ) (fps : ℚ) (x : List ℚ) :
    Except Unit (List ℚ) :=
  if ¬ (max (3 / 4 / (fps / 2)) (1 / 1000000) < min (3 / (fps / 2)) (999 / 1000)) then
    Except.error ()
  else if x.length ≤ 27 then Except.error ()
  else Except.ok (filt x)

/-- The 95th percentile with numpy's linear interpolation between order
statistics. -/
def percentile95 (l : List ℚ) : ℚ :=
  let s := l.mergeSort (fun a b => a ≤ b)
  let pos : ℚ := ((l.length : ℚ) - 1) * (19 / 20)
  let lo : ℕ := pos.floor.toNat
  let base := s.getD lo 0
  base + (pos - lo) * (s.getD (lo + 1) base - base)

/-- SNR of `SignalProcessor.process`: in-band PSD power over out-of-band
power plus `1e-8`, `0` when no bin is in band. -/
def snrOf (pairs : List (ℚ × ℚ)) : ℚ :=
  let inb := pairs.filter (fun fp => 3 / 4 ≤ fp.1 ∧ fp.1 ≤ 3)
  if inb.length = 0 then 0
  else
    ((inb.map Prod.snd).sum) /
      (((pairs.filter (fun fp => ¬(3 / 4 ≤ fp.1 ∧ fp.1 ≤ 3))).map Prod.snd).sum
        + 1 / 10 ^ 8)

/-- Embedding of `SignalProcessor.process`: interpolate, detrend, reject a
near-zero-variance signal (`np.std < 1e-8`, carried as `varP < 1e-16`) with
the `DegenerateSignal` kind, normalize by the standard deviation (the float
square root `sqrtA` of the variance), band-pass filter (failures become the
`RuntimeError` re-raise, kind `filterConfig`), then attach the Welch PSD
(`welchF`, returning frequency/power pairs), SNR, and quality flags. -/
def process (sqrtA : ℚ → ℚ) (filt : List ℚ → List ℚ)
    (welchF : List ℚ → ℚ → List (ℚ × ℚ)) (sd : SignalData) :
    Except Err FilteredSignal :=
  let g0 := interpolate_nans sd.green
  let g1 := detrendLinear g0
  if varP g1 < 1 / 10 ^ 16 then Except.error Err.degenerateSignal
  else
    match butter_bandpass_filter filt sd.fps (g1.map (fun x => x / sqrtA (varP g1))) with
    | Except.error _ => Except.error Err.filterConfig
    | Except.ok filtered =>
      let pairs := welchF filtered sd.fps
      Except.ok
        { signal := filtered
          sampling_rate := sd.fps
          psd := pairs.map Prod.snd
          psd_freqs := pairs.map Prod.fst
          snr := snrOf pairs
          low_variance := decide (varP filtered < 1 / 10 ^ 4)
          high_motion :=
            decide (4 * varP filtered <
              (percentile95 ((diffs filtered).map (fun d => |d|))) ^ 2) }

/-- Every element of the detrended constant list is zero. -/
theorem detrendLinear_replicate_eq_zero (n : ℕ) (c : ℚ) (hn : 1 ≤ n)
    (x : ℚ) (hx : x ∈ detrendLinear (List.replicate n c)) : x = 0 := by
  have hne : (n : ℚ) ≠ 0 := by exact_mod_cast Nat.one_le_iff_ne_zero.mp hn
  have hmean : qmean (List.replicate n c) = c := by
    unfold qmean
    rw [List.sum_replicate, List.length_replicate, nsmul_eq_mul]
    field_simp
  have hsnd : ∀ p : ℕ × ℚ, p ∈ (List.replicate n c).enum → p.2 = c := by
    intro p hp
    exact List.eq_of_mem_replicate (List.getElem?_mem (List.mem_enum_iff_getElem?.mp hp))
  unfold detrendLinear at hx
  simp only [List.mem_map] at hx
  obtain ⟨p, hp, hpx⟩ := hx
  rw [← hpx, hmean, hsnd p hp]
  have hS : (List.map
      (fun q => ((q.1 : ℚ) - (((List.replicate n c).length : ℚ) - 1) / 2) * (q.2 - c))
      (List.replicate n c).enum).sum = 0 := by
    apply List.sum_eq_zero
    intro y hy
    simp only [List.mem_map] at hy
    obtain ⟨q, hq, hqy⟩ := hy
    rw [← hqy, hsnd q hq]
    ring
  rw [hS]
  simp

/-- Variance of an all-zero list is zero. -/
theorem varP_zero_of_all_zero (l : List ℚ) (h : ∀ x ∈ l, x = 0) : varP l = 0 := by
  unfold varP
  have h2 : (l.map (fun x => (x - qmean l) ^ 2)).sum = 0 := by
    apply List.sum_eq_zero
    intro y hy
    simp only [List.mem_map] at hy
    obtain ⟨z, hz, hzy⟩ := hy
    rw [← hzy, h z hz]
    unfold qmean
    rw [List.sum_eq_zero h]
    simp
  rw [h2, zero_div]

/-- Interpolation is the identity on a constant NaN-free series. -/
theorem interpolateNaNs_replicate (n : ℕ) (c : ℚ) :
    interpolate_nans (List.replicate n (some c)) = List.replicate n c := by
  unfold interpolate_nans
  rw [if_pos]
  · rw [List.map_replicate]
    rfl
  · simp [List.all_eq_true]

/-- Mean of a constant list. -/
theorem qmean_replicate (n : ℕ) (c : ℚ) (hn : 1 ≤ n) :
    qmean (List.replicate n c) = c := by
  have hne : (n : ℚ) ≠ 0 := by exact_mod_cast Nat.one_le_iff_ne_zero.mp hn
  unfold qmean
  rw [List.sum_replicate, List.length_replicate, nsmul_eq_mul]
  field_simp

/-- Interpolation preserves the series length. -/
theorem interpolateNaNs_length (l : List (Option ℚ)) :
    (interpolate_nans l).length = l.length := by
  unfold interpolate_nans
  split
  · rw [List.length_map]
  · rw [List.length_map, List.enum_length]

/-- Detrending preserves the series length. -/
theorem detrendLinear_length (l : List ℚ) :
    (detrendLinear l).length = l.length := by
  unfold detrendLinear
  rw [List.length_map, List.enum_length]

/-- Detrending a constant series yields an exactly-zero-variance series. -/
theorem varP_detrendLinear_replicate (n : ℕ) (c : ℚ) (hn : 1 ≤ n) :
    varP (detrendLinear (List.replicate n c)) = 0 :=
  varP_zero_of_all_zero _ (detrendLinear_replicate_eq_zero n c hn)

/-- C6: a clip whose extracted ROI signal is perfectly constant makes the
signal conditioner fail with `DegenerateSignal` — after detrending, the
variance is exactly zero, below the `np.std < 1e-8` rejection threshold, so
`SignalProcessor.process` raises before any heart-rate estimation, for every
behaviour of the external filter and PSD routines. -/
theorem process_flat_fails_degenerate (sqrtA : ℚ → ℚ) (filt : List ℚ → List ℚ)
    (welchF : List ℚ → ℚ → List (ℚ × ℚ)) (n : ℕ) (c fps : ℚ) (hn : 1 ≤ n) :
    process sqrtA filt welchF
      { green := List.replicate n (some c), red := List.replicate n (some c)
        fps := fps, detected_frames := n, total_frames := n } =
      Except.error Err.degenerateSignal := by
  unfold process
  simp only [interpolateNaNs_replicate, varP_detrendLinear_replicate n c hn]
  norm_num

/-- Witness for C6: a 5-frame clip with constant green value 7 fails with
`DegenerateSignal` (external numerics instantiated with identities). -/
theorem process_flat_fails_degenerate_witness :
    (1 : ℕ) ≤ 5 ∧
      process (fun q => q) (fun l => l) (fun _ _ => [])
        { green := List.replicate 5 (some 7), red := List.replicate 5 (some 7)
          fps := 30, detected_frames := 5, total_frames := 5 } =
        Except.error Err.degenerateSignal :=
  ⟨by norm_num, process_flat_fails_degenerate _ _ _ 5 7 30 (by norm_num)⟩

/-- The clamp `np.clip(x, lo, hi)`. -/
def clipQ (lo hi x : ℚ) : ℚ := min hi (max lo x)

/-- Embedding of `VitalsEstimator.experimental_spo2_estimate`: interpolate
both channels, detrend and band-pass them to get the AC amplitudes (standard
deviations, via the float square root `sqrtA` of the exact variances), divide
by the DC means (replaced by `1.0` when within `1e-6` of zero), form
`R = (AC_red/DC_red) / (AC_green/DC_green + 1e-12)`, and map to
`clip(104 - 18 R, 70, 100)`.  The source wraps the whole body in
`try/except`, returning `None` on any exception — the only failing step on
NaN-free numeric input is the band-pass call, so a filter failure yields
`none` and every other input yields a numeric value. -/
def experimental_spo2_estimate (sqrtA : ℚ → ℚ) (filt : List ℚ → List ℚ)
    (sd : SignalData) : Option ℚ :=
  let red := interpolate_nans sd.red
  let green := interpolate_nans sd.green
  match butter_bandpass_filter filt sd.fps (detrendLinear red),
      butter_bandpass_filter filt sd.fps (detrendLinear green) with
  | Except.ok redBp, Except.ok greenBp =>
    let acRed := sqrtA (varP redBp)
    let acGreen := sqrtA (varP greenBp)
    let dcRed := if 1 / 10 ^ 6 < |qmean red| then qmean red else 1
    let dcGreen := if 1 / 10 ^ 6 < |qmean green| then qmean green else 1
    some (clipQ 70 100 (104 - 18 * ((acRed / dcRed) / (acGreen / dcGreen + 1 / 10 ^ 12))))
  | _, _ => none

/-- A 60-frame clip at 30 fps (2 seconds of signal, far below the spec's
5-second SpO₂ gate) with constant channels. -/
def sdShort : SignalData :=
  { green := List.replicate 60 (some 100)
    red := List.replicate 60 (some 120)
    fps := 30
    detected_frames := 60
    total_frames := 60 }

/-- Counterexample for C4: on the 2-second clip `sdShort` the SpO₂ estimator
returns the numeric value 100 even though the clip is far shorter than the
claimed minimum-duration safety gate (and no heart-rate or ratio gate is ever
consulted — the estimator does not even receive the heart rate). -/
theorem spo2_numeric_despite_short_clip :
    (sdShort.total_frames : ℚ) / sdShort.fps < 5 ∧
      experimental_spo2_estimate (fun q => q) (fun l => l) sdShort = some 100 := by
  constructor
  · norm_num [sdShort]
  · unfold experimental_spo2_estimate sdShort
    simp only [interpolateNaNs_replicate]
    have h120 : qmean (List.replicate 60 (120 : ℚ)) = 120 := qmean_replicate 60 120 (by norm_num)
    have h100 : qmean (List.replicate 60 (100 : ℚ)) = 100 := qmean_replicate 60 100 (by norm_num)
    have hbp : ∀ c : ℚ, butter_bandpass_filter (fun l => l) 30 (detrendLinear (List.replicate 60 c)) =
        Except.ok (detrendLinear (List.replicate 60 c)) := by
      intro c
      unfold butter_bandpass_filter
      rw [if_neg, if_neg]
      · rw [detrendLinear_length, List.length_replicate]
        norm_num
      · norm_num
    rw [hbp, hbp]
    simp only [varP_detrendLinear_replicate 60 120 (by norm_num),
      varP_detrendLinear_replicate 60 100 (by norm_num), h120, h100]
    norm_num [clipQ]

/-- C4 (amended): the SpO₂ estimator applies no safety gates at all — for
every behaviour of the external numerics, any clip whose band edges are valid
for its sampling rate and whose channels are longer than the filter pad
length yields a numeric SpO₂ regardless of duration, heart rate, DC sign, or
ratio value, clamped to `[70, 100]` (not `[88, 100]`); `none` arises only
from a failing filter call (the caught exception path). -/
theorem spo2_numeric_whenever_filter_ok (sqrtA : ℚ → ℚ) (filt : List ℚ → List ℚ)
    (sd : SignalData)
    (hband : max (3 / 4 / (sd.fps / 2)) (1 / 1000000) < min (3 / (sd.fps / 2)) (999 / 1000))
    (hred : 27 < sd.red.length) (hgreen : 27 < sd.green.length) :
    ∃ v, experimental_spo2_estimate sqrtA filt sd = some v ∧ 70 ≤ v ∧ v ≤ 100 := by
  unfold experimental_spo2_estimate
  have hbpr : butter_bandpass_filter filt sd.fps (detrendLinear (interpolate_nans sd.red)) =
      Except.ok (filt (detrendLinear (interpolate_nans sd.red))) := by
    unfold butter_bandpass_filter
    rw [if_neg (not_not_intro hband), if_neg]
    rw [detrendLinear_length, interpolateNaNs_length]
    omega
  have hbpg : butter_bandpass_filter filt sd.fps (detrendLinear (interpolate_nans sd.green)) =
      Except.ok (filt (detrendLinear (interpolate_nans sd.green))) := by
    unfold butter_bandpass_filter
    rw [if_neg (not_not_intro hband), if_neg]
    rw [detrendLinear_length, interpolateNaNs_length]
    omega
  simp only [hbpr, hbpg]
  refine ⟨_, rfl, ?_, ?_⟩
  · exact le_min (by norm_num) (le_max_left _ _)
  · exact min_le_left _ _

/-- Witness for C4 (amended): the 2-second clip `sdShort` satisfies the
filter-side conditions and gets a numeric clamped SpO₂. -/
theorem spo2_numeric_whenever_filter_ok_witness :
    ∃ v, experimental_spo2_estimate (fun q => q) (fun l => l) sdShort = some v ∧
      70 ≤ v ∧ v ≤ 100 :=
  spo2_numeric_whenever_filter_ok _ _ sdShort (by norm_num [sdShort])
    (by simp [sdShort]) (by simp [sdShort])

/-- Indexing into a signal (`x[i]`, `0` out of range; all accesses on the
modelled paths are in range). -/
def getQ (x : List ℚ) (i : ℕ) : ℚ := x.getD i 0

/-- Plateau scan of `scipy.signal._local_maxima_1d`: the first index at or
after `j` that either reaches the last sample or differs from the plateau
value `v`. -/
def findAhead (x : List ℚ) (v : ℚ) (j : ℕ) (fuel : ℕ) : ℕ :=
  match fuel with
  | 0 => j
  | fuel + 1 =>
    if j + 1 < x.length ∧ getQ x j = v then findAhead x v (j + 1) fuel else j

/-- Main loop of `scipy.signal._local_maxima_1d` over interior indices: a
sample strictly above its left neighbour that is followed (after a possible
plateau of equal values) by a strictly smaller sample is a local maximum,
recorded at the plateau midpoint; the scan resumes past the plateau. -/
def lmLoop (x : List ℚ) (i : ℕ) (fuel : ℕ) : List ℕ :=
  match fuel with
  | 0 => []
  | fuel + 1 =>
    if i + 1 < x.length then
      if getQ x (i - 1) < getQ x i then
        let ia := findAhead x (getQ x i) (i + 1) x.length
        if getQ x ia < getQ x i then
          ((i + ia - 1) / 2) :: lmLoop x (ia + 1) fuel
        else lmLoop x (i + 1) fuel
      else lmLoop x (i + 1) fuel
    else []

/-- Local maxima of a signal (`scipy.signal._local_maxima_1d`). -/
def localMaxima (x : List ℚ) : List ℕ := lmLoop x 1 x.length

/-- Height of the `k`-th candidate peak. -/
def htsAt (x : List ℚ) (pos : List ℕ) (k : ℕ) : ℚ := getQ x (pos.getD k 0)

/-- Stable insertion keeping the list ascending by height (ties keep the
earlier index first), modelling `np.argsort` of the peak heights. -/
def insertByHeight (h : ℕ → ℚ) (j : ℕ) : List ℕ → List ℕ
  | [] => [j]
  | k :: rest => if h k ≤ h j then k :: insertByHeight h j rest else j :: k :: rest

/-- Priority order of `scipy.signal._select_by_peak_distance`: peak indices
sorted ascending by height (processing walks it from the end, i.e. highest
peak first; numpy's unstable tie order can only matter for equal-height peaks
closer than the distance, which does not occur in any input used here). -/
def priorityOrder (h : ℕ → ℚ) (n : ℕ) : List ℕ :=
  (List.range n).foldl (fun acc j => insertByHeight h j acc) []

/-- One round of `_select_by_peak_distance`: if peak `j` is still kept, drop
every other peak closer than `d` samples to it.  (The source clears the
contiguous runs to the left and right of `j` whose gap is below `distance`;
as the positions are ascending, that is exactly every peak with gap below
`d`.) -/
def distStep (pos : List ℕ) (d : ℕ) (keep : ℕ → Bool) (j : ℕ) : ℕ → Bool :=
  if keep j then
    fun k => keep k && (k == j || decide (d ≤ Nat.dist (pos.getD k 0) (pos.getD j 0)))
  else keep

/-- Final keep mask of `_select_by_peak_distance`. -/
def keepOfDistance (pos : List ℕ) (x : List ℚ) (d : ℕ) : ℕ → Bool :=
  ((priorityOrder (htsAt x pos) pos.length).reverse).foldl (distStep pos d) (fun _ => true)

/-- Peaks surviving the minimum-distance selection, in position order. -/
def selectByDistance (pos : List ℕ) (x : List ℚ) (d : ℕ) : List ℕ :=
  ((List.range pos.length).filter (keepOfDistance pos x d)).map (fun k => pos.getD k 0)

/-- Leftward scan of `scipy.signal._peak_prominences` (full window): running
minimum from the peak leftwards while samples stay at or below the peak
height `v`; the scan is entered at index `i` only when `x[i]` was admitted. -/
def scanLeftMin (x : List ℚ) (v : ℚ) : ℕ → ℚ
  | 0 => getQ x 0
  | i + 1 => if getQ x i ≤ v then min (getQ x (i + 1)) (scanLeftMin x v i) else getQ x (i + 1)

/-- Rightward scan of `_peak_prominences`, mirroring `scanLeftMin`. -/
def scanRightMin (x : List ℚ) (v : ℚ) (i : ℕ) (fuel : ℕ) : ℚ :=
  match fuel with
  | 0 => getQ x i
  | fuel + 1 =>
    if i + 1 < x.length ∧ getQ x (i + 1) ≤ v then
      min (getQ x i) (scanRightMin x v (i + 1) fuel)
    else getQ x i

/-- Prominence of a peak: its height minus the higher of the two bases. -/
def prominenceAt (x : List ℚ) (p : ℕ) : ℚ :=
  getQ x p - max (scanLeftMin x (getQ x p) p) (scanRightMin x (getQ x p) p x.length)

/-- The prominence filter of `find_peaks` with threshold
`max(0.3 * np.std(signal), 0.01)`: since the first conjunct forces the
prominence positive, the second conjunct is exactly `prom ≥ 0.3 * std` with
the standard deviation squared away per the file conventions. -/
def promOK (x : List ℚ) (prom : ℚ) : Bool :=
  decide (1 / 100 ≤ prom ∧ 9 / 100 * varP x ≤ prom ^ 2)

/-- `find_peaks(signal, distance=d)` (no prominence argument). -/
def findPeaksDist (x : List ℚ) (d : ℕ) : List ℕ := selectByDistance (localMaxima x) x d

/-- `find_peaks(signal, distance=d, prominence=max(0.3*std, 0.01))`: the
source applies the distance selection first, then the prominence filter. -/
def findPeaksDistProm (x : List ℚ) (d : ℕ) : List ℕ :=
  (findPeaksDist x d).filter (fun p => promOK x (prominenceAt x p))

/-- Conversion of peak indices to inter-beat intervals in milliseconds
(`np.diff(peaks) / fps * 1000` when at least two peaks exist). -/
def rrFromPeaks (peaks : List ℕ) (fps : ℚ) : List ℚ :=
  if 2 ≤ peaks.length then
    (peaks.zip peaks.tail).map (fun pq => ((pq.2 : ℚ) - (pq.1 : ℚ)) * 1000 / fps)
  else []

/-- Embedding of `VitalsEstimator.estimate_rr_intervals`: strict peak search
with distance `int(max(1, 0.4 * fps))` and the std-proportional prominence;
if fewer than `MIN_PEAKS_FOR_HRV = 3` peaks are found, retry with the looser
distance `int(0.3 * fps)` and no prominence (scipy raises `ValueError` when
that distance is below 1, the uncaught error case). -/
def estimate_rr_intervals (fs : FilteredSignal) (fps : ℚ) : Except Unit (List ℚ) :=
  let d1 : ℕ := (Int.floor (max 1 (2 / 5 * fps))).toNat
  let peaks1 := findPeaksDistProm fs.signal d1
  if peaks1.length < 3 then
    let d2 : ℕ := (Int.floor (3 / 10 * fps)).toNat
    if d2 < 1 then Except.error ()
    else Except.ok (rrFromPeaks (findPeaksDist fs.signal d2) fps)
  else Except.ok (rrFromPeaks peaks1 fps)

/-- Two isolated triangular pulses 23 samples apart in a 31-sample signal:
local maxima at indices 3 and 26. -/
def sigC3 : List ℚ :=
  [0, 1, 2, 3, 2, 1, 0, 0, 0, 0, 0, 0, 0, 0, 0, 0, 0, 0, 0, 0, 0, 0, 0, 0, 1, 2, 3, 2, 1, 0, 0]

/-- The conditioned signal wrapping `sigC3` at 10 fps. -/
def fsC3 : FilteredSignal :=
  { signal := sigC3, sampling_rate := 10, psd := [], psd_freqs := [], snr := 0,
    low_variance := false, high_motion := false }

/-- Local maxima of the two-pulse signal. -/
theorem localMaxima_sigC3 : localMaxima sigC3 = [3, 26] := by decide

set_option maxRecDepth 4000 in
/-- Counterexample for C3: on the two-pulse signal `fsC3` at 10 fps,
`estimate_rr_intervals` returns the single interval 2300 ms — outside the
physiological window (above 2000 ms) — and that unfiltered sequence is
exactly what `VitalsEstimator.estimate` hands to `compute_hrv_metrics`; no
dropping of out-of-window intervals happens anywhere. -/
theorem estimateRR_returns_out_of_window_interval :
    estimate_rr_intervals fsC3 10 = Except.ok [2300] ∧ (2000 : ℚ) < 2300 := by decide

/-- The plateau scan never moves left. -/
theorem findAhead_ge (x : List ℚ) (v : ℚ) :
    ∀ (fuel j : ℕ), j ≤ findAhead x v j fuel := by
  intro fuel
  induction fuel with
  | zero => intro j; simp [findAhead]
  | succ n ih =>
    intro j
    unfold findAhead
    split
    · exact le_trans (Nat.le_succ j) (ih (j + 1))
    · exact le_rfl

/-- The local-maxima loop only records indices at or beyond its cursor, in
strictly increasing order. -/
theorem lmLoop_ge_and_sorted (x : List ℚ) :
    ∀ (fuel i : ℕ), (∀ m ∈ lmLoop x i fuel, i ≤ m) ∧
      List.Pairwise (· < ·) (lmLoop x i fuel) := by
  intro fuel
  induction fuel with
  | zero => intro i; simp [lmLoop]
  | succ n ih =>
    intro i
    unfold lmLoop
    split
    · split
      · simp only []
        split
        · rename_i hup hdown
          have hia : i + 1 ≤ findAhead x (getQ x i) (i + 1) x.length :=
            findAhead_ge x (getQ x i) x.length (i + 1)
          obtain ⟨ihge, ihpw⟩ := ih (findAhead x (getQ x i) (i + 1) x.length + 1)
          constructor
          · intro m hm
            rcases List.mem_cons.mp hm with rfl | hm2
            · omega
            · have := ihge m hm2
              omega
          · rw [List.pairwise_cons]
            refine ⟨?_, ihpw⟩
            intro m hm
            have := ihge m hm
            omega
        · obtain ⟨ihge, ihpw⟩ := ih (i + 1)
          exact ⟨fun m hm => le_trans (Nat.le_succ i) (ihge m hm), ihpw⟩
      · obtain ⟨ihge, ihpw⟩ := ih (i + 1)
        exact ⟨fun m hm => le_trans (Nat.le_succ i) (ihge m hm), ihpw⟩
    · simp

/-- The local maxima are strictly increasing positions. -/
theorem localMaxima_sorted (x : List ℚ) :
    List.Pairwise (· < ·) (localMaxima x) :=
  (lmLoop_ge_and_sorted x x.length 1).2

/-- The keep mask only ever turns off: a peak kept after processing a batch
was kept before it. -/
theorem foldl_distStep_mono (pos : List ℕ) (d : ℕ) :
    ∀ (l : List ℕ) (keep : ℕ → Bool) (k : ℕ),
      (l.foldl (distStep pos d) keep) k = true → keep k = true := by
  intro l
  induction l with
  | nil => intro keep k h; exact h
  | cons a rest ih =>
    intro keep k h
    have h2 := ih (distStep pos d keep a) k h
    unfold distStep at h2
    split at h2
    · simp only [Bool.and_eq_true] at h2
      exact h2.1
    · exact h2

/-- Once a surviving peak's turn runs, every other peak closer than the
distance is removed for good. -/
theorem foldl_distStep_clears (pos : List ℕ) (d : ℕ) :
    ∀ (l : List ℕ) (keep : ℕ → Bool) (j : ℕ), j ∈ l →
      (l.foldl (distStep pos d) keep) j = true →
      ∀ k, k ≠ j → Nat.dist (pos.getD k 0) (pos.getD j 0) < d →
        (l.foldl (distStep pos d) keep) k = false := by
  intro l
  induction l with
  | nil => intro keep j hj; exact absurd hj (List.not_mem_nil j)
  | cons a rest ih =>
    intro keep j hj hkeepj k hkj hdist
    rcases List.mem_cons.mp hj with rfl | hjr
    · have hj1 : (distStep pos d keep j) j = true :=
        foldl_distStep_mono pos d rest _ j hkeepj
      have hkeepj0 : keep j = true := by
        unfold distStep at hj1
        split at hj1
        · assumption
        · exact hj1
      have hk1 : (distStep pos d keep j) k = false := by
        unfold distStep
        rw [if_pos hkeepj0]
        simp only [Bool.and_eq_false_iff, Bool.or_eq_false_iff]
        right
        constructor
        · exact beq_eq_false_iff_ne.mpr hkj
        · exact decide_eq_false (Nat.not_le.mpr hdist)
      simp only [List.foldl_cons]
      cases hres : ((rest.foldl (distStep pos d) (distStep pos d keep j)) k) with
      | false => rfl
      | true =>
        have := foldl_distStep_mono pos d rest (distStep pos d keep j) k hres
        rw [hk1] at this
        exact absurd this (by simp)
    · exact ih (distStep pos d keep a) j hjr hkeepj k hkj hdist

/-- Membership in the stable height-insertion. -/
theorem mem_insertByHeight (h : ℕ → ℚ) (j m : ℕ) :
    ∀ l : List ℕ, m ∈ insertByHeight h j l ↔ m = j ∨ m ∈ l := by
  intro l
  induction l with
  | nil => simp [insertByHeight]
  | cons a rest ih =>
    unfold insertByHeight
    split
    · simp only [List.mem_cons, ih]
      tauto
    · simp only [List.mem_cons]

/-- Every index below `n` occurs in the priority order. -/
theorem mem_priorityOrder (h : ℕ → ℚ) (n m : ℕ) (hm : m < n) :
    m ∈ priorityOrder h n := by
  unfold priorityOrder
  have key : ∀ (l : List ℕ) (acc : List ℕ), m ∈ acc ∨ m ∈ l →
      m ∈ l.foldl (fun acc j => insertByHeight h j acc) acc := by
    intro l
    induction l with
    | nil =>
      intro acc hacc
      rcases hacc with h1 | h1
      · simpa using h1
      · exact absurd h1 (List.not_mem_nil m)
    | cons a rest ih =>
      intro acc hacc
      simp only [List.foldl_cons]
      apply ih
      rcases hacc with h1 | h1
      · left; exact (mem_insertByHeight h a m acc).mpr (Or.inr h1)
      · rcases List.mem_cons.mp h1 with rfl | h2
        · left; exact (mem_insertByHeight h m m acc).mpr (Or.inl rfl)
        · right; exact h2
  exact key (List.range n) [] (Or.inr (List.mem_range.mpr hm))

/-- Two distinct peaks that both survive the distance selection are at least
the distance apart. -/
theorem keepOfDistance_spread (pos : List ℕ) (x : List ℚ) (d : ℕ) (j k : ℕ)
    (hj : j < pos.length) (hjk : j ≠ k)
    (hkeepj : keepOfDistance pos x d j = true)
    (hkeepk : keepOfDistance pos x d k = true) :
    d ≤ Nat.dist (pos.getD j 0) (pos.getD k 0) := by
  by_contra hcon
  push_neg at hcon
  have hjmem : j ∈ (priorityOrder (htsAt x pos) pos.length).reverse :=
    List.mem_reverse.mpr (mem_priorityOrder _ _ j hj)
  have := foldl_distStep_clears pos d
    ((priorityOrder (htsAt x pos) pos.length).reverse) (fun _ => true) j hjmem
    hkeepj k (fun hkj => hjk hkj.symm) (by rw [Nat.dist_comm]; exact hcon)
  unfold keepOfDistance at hkeepk
  rw [hkeepk] at this
  exact absurd this (by simp)

/-- Peaks surviving the distance selection of a sorted position list are
pairwise at least `d` apart in position order. -/
theorem selectByDistance_pairwise (pos : List ℕ) (x : List ℚ) (d : ℕ)
    (hsort : List.Pairwise (· < ·) pos) :
    List.Pairwise (fun a b => a + d ≤ b) (selectByDistance pos x d) := by
  unfold selectByDistance
  rw [List.pairwise_map]
  have h1 : List.Pairwise (· < ·)
      ((List.range pos.length).filter (keepOfDistance pos x d)) :=
    (List.pairwise_lt_range _).filter _
  apply h1.imp_of_mem
  intro a b ha hb hab
  obtain ⟨har, hak⟩ := List.mem_filter.mp ha
  obtain ⟨hbr, hbk⟩ := List.mem_filter.mp hb
  have haln : a < pos.length := List.mem_range.mp har
  have hbln : b < pos.length := List.mem_range.mp hbr
  have hdist := keepOfDistance_spread pos x d a b haln (Nat.ne_of_lt hab) hak hbk
  have hmon : pos.getD a 0 < pos.getD b 0 := by
    have hg := List.pairwise_iff_getElem.mp hsort a b haln hbln hab
    rwa [List.getD_eq_getElem pos 0 haln, List.getD_eq_getElem pos 0 hbln]
  simp only [Nat.dist] at hdist
  omega

/-- The strict-peak search (distance then prominence filter) returns
positions pairwise at least `d` apart. -/
theorem findPeaksDistProm_pairwise (x : List ℚ) (d : ℕ) :
    List.Pairwise (fun a b => a + d ≤ b) (findPeaksDistProm x d) :=
  (selectByDistance_pairwise _ x d (localMaxima_sorted x)).filter _

/-- The fallback peak search returns positions pairwise at least `d` apart. -/
theorem findPeaksDist_pairwise (x : List ℚ) (d : ℕ) :
    List.Pairwise (fun a b => a + d ≤ b) (findPeaksDist x d) :=
  selectByDistance_pairwise _ x d (localMaxima_sorted x)

/-- Consecutive entries of a pairwise-related list are related. -/
theorem zip_tail_rel {R : ℕ → ℕ → Prop} :
    ∀ (l : List ℕ), List.Pairwise R l → ∀ pq ∈ l.zip l.tail, R pq.1 pq.2 := by
  intro l
  induction l with
  | nil => intro _ pq hpq; exact absurd hpq (List.not_mem_nil pq)
  | cons a rest ih =>
    intro hpw pq hpq
    cases rest with
    | nil => exact absurd hpq (List.not_mem_nil pq)
    | cons b rest2 =>
      rw [List.pairwise_cons] at hpw
      simp only [List.tail_cons, List.zip_cons_cons, List.mem_cons] at hpq
      rcases hpq with rfl | hpq2
      · exact hpw.1 b (List.mem_cons_self _ _)
      · exact ih hpw.2 pq (by simpa using hpq2)

/-- Each interval produced from pairwise-spaced peaks is at least
`d * 1000 / fps` milliseconds. -/
theorem rrFromPeaks_lower_bound (peaks : List ℕ) (d : ℕ) (fps : ℚ) (hfps : 0 < fps)
    (hpw : List.Pairwise (fun a b => a + d ≤ b) peaks) :
    ∀ y ∈ rrFromPeaks peaks fps, (d : ℚ) * 1000 / fps ≤ y := by
  intro y hy
  unfold rrFromPeaks at hy
  split at hy
  · simp only [List.mem_map] at hy
    obtain ⟨pq, hpq, hpqy⟩ := hy
    have hrel := zip_tail_rel peaks hpw pq hpq
    rw [← hpqy]
    have hcast : (d : ℚ) ≤ (pq.2 : ℚ) - (pq.1 : ℚ) := by
      have : (pq.1 : ℚ) + (d : ℚ) ≤ (pq.2 : ℚ) := by exact_mod_cast hrel
      linarith
    gcongr
  · exact absurd hy (List.not_mem_nil y)

/-- C3 (amended): `estimate_rr_intervals` applies no physiological-window
filter — the intervals handed to `compute_hrv_metrics` are the raw
consecutive peak gaps, which can exceed 2000 ms (see the counterexample) —
and the only spacing guarantee is the `find_peaks` minimum distance: every
returned interval is at least `⌊0.3·fps⌋ · 1000 / fps` ms (about 300 ms, up
to rounding), in both the strict and the fallback branch. -/
theorem estimateRRIntervals_spacing_lower_bound (fs : FilteredSignal) (fps : ℚ)
    (hfps : 0 < fps) (rr : List ℚ)
    (hok : estimate_rr_intervals fs fps = Except.ok rr) :
    ∀ y ∈ rr, ((Int.floor (3 / 10 * fps)).toNat : ℚ) * 1000 / fps ≤ y := by
  unfold estimate_rr_intervals at hok
  simp only [] at hok
  split at hok
  · split at hok
    · exact absurd hok (by simp)
    · simp only [Except.ok.injEq] at hok
      intro y hy
      rw [← hok] at hy
      exact rrFromPeaks_lower_bound _ _ fps hfps (findPeaksDist_pairwise _ _) y hy
  · simp only [Except.ok.injEq] at hok
    intro y hy
    rw [← hok] at hy
    have hb := rrFromPeaks_lower_bound _ _ fps hfps
      (findPeaksDistProm_pairwise fs.signal ((Int.floor (max 1 (2 / 5 * fps))).toNat)) y hy
    have hd : (Int.floor (3 / 10 * fps)).toNat ≤ (Int.floor (max 1 (2 / 5 * fps))).toNat := by
      apply Int.toNat_le_toNat
      apply Int.floor_le_floor
      have h1 : 3 / 10 * fps ≤ 2 / 5 * fps := by linarith
      exact le_trans h1 (le_max_right _ _)
    calc ((Int.floor (3 / 10 * fps)).toNat : ℚ) * 1000 / fps
        ≤ ((Int.floor (max 1 (2 / 5 * fps))).toNat : ℚ) * 1000 / fps := by
          gcongr
      _ ≤ y := hb

set_option maxRecDepth 4000 in
/-- Witness for C3 (amended): on the two-pulse clip at 10 fps the single
interval 2300 ms respects the 300 ms spacing lower bound. -/
theorem estimateRRIntervals_spacing_lower_bound_witness :
    (0 : ℚ) < 10 ∧ ((Int.floor ((3 : ℚ) / 10 * 10)).toNat : ℚ) * 1000 / 10 ≤ 2300 :=
  ⟨by norm_num,
    estimateRRIntervals_spacing_lower_bound fsC3 10 (by norm_num) [2300] (by decide)
      2300 (by simp)⟩

/-- A conditioned signal with a PSD axis exactly as Welch produces for a
28-frame clip at 120 fps (`nperseg = 28`, bins at multiples of `120/28`
Hz): the only bins are `0, 4.29, 8.57, …`, none inside 0.75–3.0 Hz. -/
def fsHighRate : FilteredSignal :=
  { signal := List.replicate 28 0
    sampling_rate := 120
    psd := List.replicate 15 1
    psd_freqs := (List.range 15).map (fun k => (k : ℚ) * (30 / 7))
    snr := 0
    low_variance := false
    high_motion := false }

/-- Counterexample for C1: a clip can make the pipeline fail with an error
that is none of the spec's named kinds — on a Welch PSD axis with no bin in
the heart-rate band (a 28-frame clip at 120 fps), `estimate_heart_rate`
raises the `"No valid frequency bins"` ValueError, distinct from all five
taxonomy kinds. -/
theorem estimateHeartRate_unnamed_failure :
    estimate_heart_rate fsHighRate = Except.error Err.noValidBins ∧
      Err.noValidBins ≠ Err.inputUnreadable ∧
      Err.noValidBins ≠ Err.lowDetectionRate ∧
      Err.noValidBins ≠ Err.degenerateSignal ∧
      Err.noValidBins ≠ Err.implausibleHeartRate ∧
      Err.noValidBins ≠ Err.filterConfig := by decide
